import Mathlib

/-!
Verification of the asset-load-and-lifecycle orchestrator in
`samples/gltf_viewer.cpp` (Filament glTF viewer sample).

The program is embedded as a trace semantics: each externally visible
action of the orchestrator (diagnostic prints, parse-entry-point calls,
resource loading, scene-graph binding, GPU fence synchronization,
resource releases) is an `Event`, and each phase of the program
(`handleCommandLineArguments`, the body of `main`, the `setup` lambda,
the `cleanup` lambda) is a function producing the list of events it
emits together with its termination behaviour (`Except.error c` models
`exit(c)` / `return c`; `Except.ok` models normal continuation).

External collaborators that live outside the sample source — the
filesystem (`std::ifstream`), `utils::Path` accessors, and the gltfio
parser (`AssetLoader::createAssetFromBinary/Json`) — are oracles
gathered in the `Env` structure and universally quantified in the
theorems.
-/

/-- `filament::Engine::Backend` as selected by the `--api` option.
`DEFAULT` stands for the default-constructed value of `Config::backend`. -/
inductive Backend
  | DEFAULT
  | OPENGL
  | VULKAN
  | METAL
deriving DecidableEq, Repr

/-- `gltfio::MaterialSource` (`App::materialSource` defaults to
`GENERATE_SHADERS`; `--ubershader` switches it to `LOAD_UBERSHADERS`). -/
inductive MaterialSource
  | GENERATE_SHADERS
  | LOAD_UBERSHADERS
deriving DecidableEq, Repr

/-- The fields of `Config` (from `app/Config.h`) that the sample touches:
`title`, `backend` and `iblDirectory`. -/
structure Config where
  title : String
  backend : Backend
  iblDirectory : String
deriving DecidableEq, Repr

/-- The `App` aggregate of the sample, restricted to its value-like
configuration fields.  The pointer fields (`viewer`, `loader`, `asset`,
`names`) are runtime handles whose creation and destruction are
represented as trace events instead. -/
structure App where
  config : Config
  materialSource : MaterialSource
deriving DecidableEq, Repr

/-- Default IBL path appended to the root path (`DEFAULT_IBL` in the source). -/
def DEFAULT_IBL : String := "envs/venetian_crossroads"

/-- The state of `app` when `handleCommandLineArguments` is entered:
`main` has already set `config.title` and `config.iblDirectory`
(`FilamentApp::getRootPath() + DEFAULT_IBL`); the other fields keep
their default-constructed values. -/
def initialApp (rootPath : String) : App :=
  { config := { title := "Filament", backend := .DEFAULT,
                iblDirectory := rootPath ++ DEFAULT_IBL },
    materialSource := .GENERATE_SHADERS }

/-- One option token as delivered by `getopt_long`: the recognized
options `h`/`a`/`i`/`u` (with their `optarg` where applicable), or any
unrecognized flag (for which `getopt_long` returns `'?'`, which is
`≥ 0` and therefore enters the `switch`, where it hits the `default:`
label). -/
inductive OptCode
  | help
  | api (arg : String)
  | ibl (arg : String)
  | ubershader
  | unrecognized
deriving DecidableEq, Repr

/-- Which parse entry point of `gltfio::AssetLoader` is invoked. -/
inductive Format
  | binary
  | json
deriving DecidableEq, Repr

/-- The byte blob handed to a parse entry point: the embedded fallback
payload (`GLTF_DAMAGEDHELMET_DATA`) or the buffered contents of a file. -/
inductive Source
  | embedded
  | fileBytes (path : String)
deriving DecidableEq, Repr

/-- A `gltfio::FilamentAsset`, abstracted to its entity set. -/
structure Asset where
  entities : List Nat
deriving DecidableEq, Repr

/-- Externally visible actions of the orchestrator, in program order. -/
inductive Event
  | printUsage
  | warnUnrecognizedBackend
  | errFileNotFound
  | errUnableToOpen
  | errUnableToRead
  | errUnableToParse
  | createNames
  | createViewer
  | createLoader
  | parseCall (fmt : Format) (src : Source)
  | loadResources (baseDir : String)
  | getAnimator
  | releaseSourceData
  | setAsset
  | setSampleCount (n : Nat)
  | applyAnimation
  | updateUserInterface
  | fenceCreate
  | fenceWait
  | deleteViewer
  | destroyAsset
  | destroyMaterials
  | destroyLoader
  | deleteNames
deriving DecidableEq, Repr

/-- Oracles for the collaborators outside `gltf_viewer.cpp`:
* `pathExists p` — `utils::Path::exists()`;
* `fileSize p` — `getFileSize(p)`, i.e. `tellg()` after an `ate` open
  (negative on failure);
* `availableBytes p` — how many bytes `std::ifstream::read` can obtain,
  so the read of `contentSize` bytes succeeds iff
  `contentSize.toNat ≤ availableBytes p`;
* `extension p` — `utils::Path::getExtension()`;
* `parentDir p` — `utils::Path::getParent()`;
* `parse fmt src` — `AssetLoader::createAssetFromBinary/Json`, returning
  `none` exactly when the C++ call returns a null asset. -/
structure Env where
  pathExists : String → Bool
  fileSize : String → Int
  availableBytes : String → Nat
  extension : String → String
  parentDir : String → String
  parse : Format → Source → Option Asset

/-- One iteration of the `switch` in `handleCommandLineArguments`.
`Except.error c` models `exit(c)`.  The `default:` label and
`case 'h':` share one body (print usage, `exit(0)`). -/
def processOpt (st : App) : OptCode → List Event × Except Nat App
  | .help => ([Event.printUsage], .error 0)
  | .unrecognized => ([Event.printUsage], .error 0)
  | .api arg =>
      if arg = "opengl" then
        ([], .ok { st with config := { st.config with backend := .OPENGL } })
      else if arg = "vulkan" then
        ([], .ok { st with config := { st.config with backend := .VULKAN } })
      else if arg = "metal" then
        ([], .ok { st with config := { st.config with backend := .METAL } })
      else
        ([Event.warnUnrecognizedBackend], .ok st)
  | .ibl arg =>
      ([], .ok { st with config := { st.config with iblDirectory := arg } })
  | .ubershader =>
      ([], .ok { st with materialSource := .LOAD_UBERSHADERS })

/-- The `while (getopt_long(...) >= 0)` loop of
`handleCommandLineArguments`, folded over the option tokens. -/
def handleArgs (st : App) : List OptCode → List Event × Except Nat App
  | [] => ([], .ok st)
  | o :: rest =>
      match processOpt st o with
      | (evs, .error c) => (evs, .error c)
      | (evs, .ok st') => ((evs ++ (handleArgs st' rest).1), (handleArgs st' rest).2)

/-- The extension test in `setup`:
`filename.getExtension() == "glb"` selects the binary entry point,
anything else the JSON entry point (`std::string` equality, exact and
case-sensitive). -/
def chooseFormat (ext : String) : Format :=
  if ext = "glb" then .binary else .json

/-- The source-selection and parse portion of the `setup` lambda: either
the embedded fallback (when `filename.isEmpty()`), or the size probe,
buffered read and extension-dispatched parse of the file.  Returns the
emitted events and either `exit(1)` or the asset pointer returned by the
chosen parse entry point. -/
def parsePhase (filename : String) (env : Env) :
    List Event × Except Nat (Option Asset) :=
  if filename = "" then
    ([Event.parseCall .binary .embedded], .ok (env.parse .binary .embedded))
  else if env.fileSize filename ≤ 0 then
    ([Event.errUnableToOpen], .error 1)
  else if env.availableBytes filename < (env.fileSize filename).toNat then
    ([Event.errUnableToRead], .error 1)
  else
    ([Event.parseCall (chooseFormat (env.extension filename)) (.fileBytes filename)],
     .ok (env.parse (chooseFormat (env.extension filename)) (.fileBytes filename)))

/-- The `setup` lambda: create the name manager, viewer and loader,
run the parse phase, check the asset pointer, then load external
resources (relative to `filename.getParent()`), extract the animator,
release the source hierarchy, bind the asset into the viewer and set
the sample count. -/
def setupRun (filename : String) (env : Env) : List Event × Except Nat Unit :=
  match parsePhase filename env with
  | (evs, .error c) =>
      ([Event.createNames, Event.createViewer, Event.createLoader] ++ evs, .error c)
  | (evs, .ok none) =>
      ([Event.createNames, Event.createViewer, Event.createLoader] ++ evs ++
        [Event.errUnableToParse], .error 1)
  | (evs, .ok (some _)) =>
      ([Event.createNames, Event.createViewer, Event.createLoader] ++ evs ++
        [Event.loadResources (env.parentDir filename),
         Event.getAnimator, Event.releaseSourceData, Event.setAsset,
         Event.setSampleCount 4], .ok ())

/-- The `cleanup` lambda:
`Fence::waitAndDestroy(engine->createFence())` (fence creation followed
by a blocking wait), then `delete app.viewer`, `destroyAsset`,
`destroyMaterials`, `AssetLoader::destroy`, `delete app.names`. -/
def cleanupTrace : List Event :=
  [Event.fenceCreate, Event.fenceWait,
   Event.deleteViewer, Event.destroyAsset, Event.destroyMaterials,
   Event.destroyLoader, Event.deleteNames]

/-- Events emitted by `frames` iterations of the render loop
(`animate` then `gui` per frame). -/
def frameTrace (frames : Nat) : List Event :=
  List.flatten (List.replicate frames [Event.applyAnimation, Event.updateUserInterface])

/-- The call `filamentApp.run(app.config, setup, cleanup, gui)`.

Modelled from the spec for the external `FilamentApp::run`: the host
render loop invokes `setup` once, then the per-frame callbacks for
`frames` frames, then `cleanup` once on shutdown; afterwards `main`
returns 0.  A fatal `exit(c)` inside `setup` terminates the process
immediately, skipping `cleanup`.  `pre` is the trace accumulated before
the host loop starts. -/
def runHost (pre : List Event) (filename : String) (frames : Nat) (env : Env) :
    List Event × Except Nat Unit :=
  match setupRun filename env with
  | (sevs, .error c) => (pre ++ sevs, .error c)
  | (sevs, .ok ()) => (pre ++ sevs ++ frameTrace frames ++ cleanupTrace, .ok ())

/-- The whole run (`main`): set the initial `App` fields, process the
options, take the first positional argument (if any) as the filename
and check `filename.exists()` (printing "not found" and returning 1
when it fails), then enter the host loop. -/
def runProgram (rootPath : String) (opts : List OptCode)
    (positionals : List String) (frames : Nat) (env : Env) :
    List Event × Except Nat Unit :=
  match handleArgs (initialApp rootPath) opts with
  | (evs, .error c) => (evs, .error c)
  | (evs, .ok _) =>
      match positionals with
      | [] => runHost evs "" frames env
      | p :: _ =>
          if env.pathExists p then runHost evs p frames env
          else (evs ++ [Event.errFileNotFound], .error 1)

/-- Is this event one of the five resource releases done by `cleanup`? -/
def isRelease : Event → Bool
  | .deleteViewer | .destroyAsset | .destroyMaterials
  | .destroyLoader | .deleteNames => true
  | _ => false

/-- Is this event part of the GPU synchronization barrier? -/
def isBarrier : Event → Bool
  | .fenceCreate | .fenceWait => true
  | _ => false

/-- Is this event an invocation of a parse entry point? -/
def isParse : Event → Bool
  | .parseCall _ _ => true
  | _ => false

/-- Is this event one of the post-parse steps of `setup` (resource
loading, animator extraction, source release, scene-graph binding)? -/
def isPostParseStep : Event → Bool
  | .loadResources _ | .getAnimator | .releaseSourceData | .setAsset => true
  | _ => false

/-- Events that can be emitted before `cleanup` runs (everything except
the barrier and the releases). -/
def preCleanupEvent : Event → Bool
  | .fenceCreate | .fenceWait | .deleteViewer | .destroyAsset
  | .destroyMaterials | .destroyLoader | .deleteNames => false
  | _ => true

/-- Modelled from the spec: "loading the embedded fallback with no CLI
path argument produces exactly one SceneAsset with a non-empty entity
set".  The embedded DamagedHelmet payload (`GLTF_DAMAGEDHELMET_DATA`)
and the gltfio parser that realizes it are outside the sample source;
this constant stands for the asset they produce, non-empty as the spec
states. -/
def embeddedFallbackAsset : Asset := { entities := [0] }

/-- A concrete environment on which the whole run succeeds: every path
exists, every file reports one byte and yields it, every extension is
`glb`, and every parse returns a one-entity asset. -/
def envOk : Env :=
  { pathExists := fun _ => true
    fileSize := fun _ => 1
    availableBytes := fun _ => 1
    extension := fun _ => "glb"
    parentDir := fun _ => ""
    parse := fun _ _ => some { entities := [0] } }

/-- Like `envOk` but every parse entry point returns a null asset. -/
def envParseFail : Env :=
  { envOk with parse := fun _ _ => none }

/-- Like `envOk` but every file has extension `gltf`. -/
def envGltf : Env :=
  { envOk with extension := fun _ => "gltf" }

/-- Like `envOk` but the embedded parse returns the spec-modelled
fallback asset. -/
def envEmbedded : Env :=
  { envOk with parse := fun _ _ => some embeddedFallbackAsset }

/-- Like `envOk` but no path exists. -/
def envMissing : Env :=
  { envOk with pathExists := fun _ => false }

/-! ### Helper lemmas about the traces of each phase -/

theorem processOpt_mem (st : App) (o : OptCode) (e : Event)
    (h : e ∈ (processOpt st o).1) :
    e = Event.printUsage ∨ e = Event.warnUnrecognizedBackend := by
  cases o with
  | api arg =>
      unfold processOpt at h
      repeat' split at h
      all_goals simp_all
  | _ => simp_all [processOpt]

theorem handleArgs_mem (st : App) (opts : List OptCode) (e : Event)
    (h : e ∈ (handleArgs st opts).1) :
    e = Event.printUsage ∨ e = Event.warnUnrecognizedBackend := by
  induction opts generalizing st with
  | nil => simp [handleArgs] at h
  | cons o rest ih =>
      unfold handleArgs at h
      rcases hp : processOpt st o with ⟨evs, r⟩
      rw [hp] at h
      cases r with
      | error c =>
          simp only at h
          exact processOpt_mem st o e (by rw [hp]; exact h)
      | ok st' =>
          simp only [List.mem_append] at h
          rcases h with h | h
          · exact processOpt_mem st o e (by rw [hp]; exact h)
          · exact ih st' h

theorem frameTrace_mem (n : Nat) (e : Event) (h : e ∈ frameTrace n) :
    e = Event.applyAnimation ∨ e = Event.updateUserInterface := by
  simp only [frameTrace, List.mem_flatten, List.mem_replicate] at h
  obtain ⟨l, ⟨-, rfl⟩, hl⟩ := h
  simpa using hl


theorem parsePhase_mem (f : String) (env : Env) (e : Event)
    (h : e ∈ (parsePhase f env).1) :
    isParse e = true ∨ e = Event.errUnableToOpen ∨ e = Event.errUnableToRead := by
  unfold parsePhase at h
  repeat' split at h
  all_goals simp_all [isParse]

theorem parsePhase_parseCall (f : String) (env : Env) (fmt : Format) (src : Source)
    (h : Event.parseCall fmt src ∈ (parsePhase f env).1) :
    (f = "" ∧ fmt = Format.binary ∧ src = Source.embedded) ∨
    (¬f = "" ∧ fmt = chooseFormat (env.extension f) ∧ src = Source.fileBytes f) := by
  unfold parsePhase at h
  repeat' split at h
  all_goals simp_all


theorem setupRun_mem (f : String) (env : Env) (e : Event)
    (h : e ∈ (setupRun f env).1) : preCleanupEvent e = true := by
  have hevs : ∀ x, x ∈ (parsePhase f env).1 → preCleanupEvent x = true := by
    intro x hx
    rcases parsePhase_mem f env x hx with h1 | h1 | h1
    · cases x <;> simp_all [isParse, preCleanupEvent]
    · rw [h1]; rfl
    · rw [h1]; rfl
  unfold setupRun at h
  rcases hp : parsePhase f env with ⟨evs, r⟩
  rw [hp] at h
  have hevs' : ∀ x, x ∈ evs → preCleanupEvent x = true := fun x hx =>
    hevs x (by rw [hp]; exact hx)
  cases r with
  | error c =>
      simp only at h
      rcases List.mem_append.mp h with h | h
      · simp only [List.mem_cons, List.not_mem_nil, or_false] at h
        rcases h with rfl | rfl | rfl <;> rfl
      · exact hevs' e h
  | ok oa =>
      cases oa with
      | none =>
          simp only at h
          rcases List.mem_append.mp h with h | h
          · rcases List.mem_append.mp h with h | h
            · simp only [List.mem_cons, List.not_mem_nil, or_false] at h
              rcases h with rfl | rfl | rfl <;> rfl
            · exact hevs' e h
          · simp only [List.mem_singleton] at h
            rw [h]; rfl
      | some a =>
          simp only at h
          rcases List.mem_append.mp h with h | h
          · rcases List.mem_append.mp h with h | h
            · simp only [List.mem_cons, List.not_mem_nil, or_false] at h
              rcases h with rfl | rfl | rfl <;> rfl
            · exact hevs' e h
          · simp only [List.mem_cons, List.not_mem_nil, or_false] at h
            rcases h with rfl | rfl | rfl | rfl | rfl <;> rfl

theorem parsePhase_error_code (f : String) (env : Env) (evs : List Event) (c : Nat)
    (h : parsePhase f env = (evs, Except.error c)) : c = 1 := by
  unfold parsePhase at h
  repeat' split at h
  all_goals simp_all

theorem setupRun_ok (f : String) (env : Env) (t : List Event)
    (h : setupRun f env = (t, Except.ok ())) :
    ∃ evs a, parsePhase f env = (evs, Except.ok (some a)) ∧
      t = [Event.createNames, Event.createViewer, Event.createLoader] ++ evs ++
          [Event.loadResources (env.parentDir f), Event.getAnimator,
           Event.releaseSourceData, Event.setAsset, Event.setSampleCount 4] := by
  unfold setupRun at h
  rcases hp : parsePhase f env with ⟨evs, r⟩
  rw [hp] at h
  cases r with
  | error c => simp at h
  | ok oa =>
      cases oa with
      | none => simp at h
      | some a =>
          simp only [Prod.mk.injEq] at h
          exact ⟨evs, a, rfl, h.1.symm⟩

theorem setupRun_error_facts (f : String) (env : Env) (t : List Event) (c : Nat)
    (h : setupRun f env = (t, Except.error c)) :
    c = 1 ∧ Event.setAsset ∉ t := by
  have hevs : Event.setAsset ∉ (parsePhase f env).1 := by
    intro hx
    rcases parsePhase_mem f env _ hx with h1 | h1 | h1 <;> simp_all [isParse]
  unfold setupRun at h
  rcases hp : parsePhase f env with ⟨evs, r⟩
  rw [hp] at h
  rw [hp] at hevs
  cases r with
  | error c' =>
      simp only [Prod.mk.injEq] at h
      obtain ⟨rfl, hc⟩ := h
      refine ⟨?_, ?_⟩
      · cases hc; exact parsePhase_error_code f env evs c hp
      · intro hx
        rcases List.mem_append.mp hx with hx | hx
        · simp at hx
        · exact hevs hx
  | ok oa =>
      cases oa with
      | none =>
          simp only [Prod.mk.injEq] at h
          obtain ⟨rfl, hc⟩ := h
          refine ⟨by cases hc; rfl, ?_⟩
          intro hx
          rcases List.mem_append.mp hx with hx | hx
          · rcases List.mem_append.mp hx with hx | hx
            · simp at hx
            · exact hevs hx
          · simp at hx
      | some a => simp at h

theorem setupRun_parseCall (f : String) (env : Env) (fmt : Format) (src : Source)
    (h : Event.parseCall fmt src ∈ (setupRun f env).1) :
    Event.parseCall fmt src ∈ (parsePhase f env).1 := by
  unfold setupRun at h
  rcases hp : parsePhase f env with ⟨evs, r⟩
  rw [hp] at h
  cases r with
  | error c =>
      simp only at h
      rcases List.mem_append.mp h with h | h
      · simp at h
      · simpa using h
  | ok oa =>
      cases oa with
      | none =>
          simp only at h
          rcases List.mem_append.mp h with h | h
          · rcases List.mem_append.mp h with h | h
            · simp at h
            · simpa using h
          · simp at h
      | some a =>
          simp only at h
          rcases List.mem_append.mp h with h | h
          · rcases List.mem_append.mp h with h | h
            · simp at h
            · simpa using h
          · simp at h

theorem setupRun_embedded_parse (env : Env) :
    Event.parseCall Format.binary Source.embedded ∈ (setupRun "" env).1 := by
  unfold setupRun parsePhase
  cases env.parse Format.binary Source.embedded <;> simp

theorem runHost_ok (pre : List Event) (f : String) (frames : Nat) (env : Env)
    (t : List Event) (h : runHost pre f frames env = (t, Except.ok ())) :
    ∃ sevs, setupRun f env = (sevs, Except.ok ()) ∧
      t = pre ++ sevs ++ frameTrace frames ++ cleanupTrace := by
  unfold runHost at h
  rcases hs : setupRun f env with ⟨sevs, r⟩
  rw [hs] at h
  cases r with
  | error c => simp at h
  | ok u =>
      cases u
      simp only [Prod.mk.injEq] at h
      exact ⟨sevs, rfl, h.1.symm⟩

theorem runHost_error (pre : List Event) (f : String) (frames : Nat) (env : Env)
    (t : List Event) (c : Nat) (h : runHost pre f frames env = (t, Except.error c)) :
    ∃ sevs, setupRun f env = (sevs, Except.error c) ∧ t = pre ++ sevs := by
  unfold runHost at h
  rcases hs : setupRun f env with ⟨sevs, r⟩
  rw [hs] at h
  cases r with
  | error c' =>
      simp only [Prod.mk.injEq] at h
      obtain ⟨rfl, hc⟩ := h
      cases hc
      exact ⟨sevs, rfl, rfl⟩
  | ok u => cases u; simp at h

theorem runHost_parseCall (pre : List Event) (f : String) (frames : Nat)
    (env : Env) (t : List Event) (r : Except Nat Unit) (fmt : Format) (src : Source)
    (h : runHost pre f frames env = (t, r))
    (hm : Event.parseCall fmt src ∈ t)
    (hpre : Event.parseCall fmt src ∉ pre) :
    Event.parseCall fmt src ∈ (parsePhase f env).1 := by
  unfold runHost at h
  rcases hs : setupRun f env with ⟨sevs, r'⟩
  rw [hs] at h
  have hset : Event.parseCall fmt src ∈ sevs →
      Event.parseCall fmt src ∈ (parsePhase f env).1 := fun hx =>
    setupRun_parseCall f env fmt src (by rw [hs]; exact hx)
  cases r' with
  | error c =>
      simp only [Prod.mk.injEq] at h
      obtain ⟨rfl, -⟩ := h
      rcases List.mem_append.mp hm with hx | hx
      · exact absurd hx hpre
      · exact hset hx
  | ok u =>
      cases u
      simp only [Prod.mk.injEq] at h
      obtain ⟨rfl, -⟩ := h
      rcases List.mem_append.mp hm with hx | hx
      · rcases List.mem_append.mp hx with hx | hx
        · rcases List.mem_append.mp hx with hx | hx
          · exact absurd hx hpre
          · exact hset hx
        · rcases frameTrace_mem frames _ hx with h1 | h1 <;> simp at h1
      · simp [cleanupTrace] at hx

theorem runProgram_ok (rp : String) (opts : List OptCode) (pos : List String)
    (frames : Nat) (env : Env) (t : List Event)
    (h : runProgram rp opts pos frames env = (t, Except.ok ())) :
    ∃ aevs st sevs, handleArgs (initialApp rp) opts = (aevs, Except.ok st) ∧
      setupRun (pos.headD "") env = (sevs, Except.ok ()) ∧
      t = aevs ++ sevs ++ frameTrace frames ++ cleanupTrace := by
  unfold runProgram at h
  rcases ha : handleArgs (initialApp rp) opts with ⟨aevs, r⟩
  rw [ha] at h
  cases r with
  | error c => simp at h
  | ok st =>
      cases pos with
      | nil =>
          simp only at h
          obtain ⟨sevs, hs, rfl⟩ := runHost_ok aevs "" frames env t h
          exact ⟨aevs, st, sevs, rfl, hs, rfl⟩
      | cons p rest =>
          simp only at h
          by_cases hp : env.pathExists p = true
          · rw [if_pos hp] at h
            obtain ⟨sevs, hs, rfl⟩ := runHost_ok aevs p frames env t h
            exact ⟨aevs, st, sevs, rfl, hs, rfl⟩
          · rw [if_neg hp] at h
            simp at h

theorem runProgram_parseCall (rp : String) (opts : List OptCode) (pos : List String)
    (frames : Nat) (env : Env) (t : List Event) (r : Except Nat Unit)
    (fmt : Format) (src : Source)
    (h : runProgram rp opts pos frames env = (t, r))
    (hm : Event.parseCall fmt src ∈ t) :
    Event.parseCall fmt src ∈ (parsePhase (pos.headD "") env).1 := by
  unfold runProgram at h
  rcases ha : handleArgs (initialApp rp) opts with ⟨aevs, r'⟩
  rw [ha] at h
  have hna : Event.parseCall fmt src ∉ aevs := by
    intro hx
    rcases handleArgs_mem (initialApp rp) opts _ (by rw [ha]; exact hx) with h1 | h1 <;>
      simp at h1
  cases r' with
  | error c =>
      simp only [Prod.mk.injEq] at h
      obtain ⟨rfl, -⟩ := h
      exact absurd hm hna
  | ok st =>
      cases pos with
      | nil =>
          simp only at h
          exact runHost_parseCall aevs "" frames env t r fmt src h hm hna
      | cons p rest =>
          simp only at h
          by_cases hp : env.pathExists p = true
          · rw [if_pos hp] at h
            exact runHost_parseCall aevs p frames env t r fmt src h hm hna
          · rw [if_neg hp] at h
            simp only [Prod.mk.injEq] at h
            obtain ⟨rfl, -⟩ := h
            rcases List.mem_append.mp hm with hx | hx
            · exact absurd hx hna
            · simp at hx

theorem handleArgs_append (st : App) (xs ys : List OptCode) :
    handleArgs st (xs ++ ys) =
      match handleArgs st xs with
      | (evs, .error c) => (evs, .error c)
      | (evs, .ok st') =>
          (evs ++ (handleArgs st' ys).1, (handleArgs st' ys).2) := by
  induction xs generalizing st with
  | nil => simp [handleArgs]
  | cons o rest ih =>
      rw [List.cons_append]
      rcases hp : processOpt st o with ⟨evs, r⟩
      cases r with
      | error c => simp [handleArgs, hp]
      | ok st' =>
          simp only [handleArgs, hp]
          rw [ih st']
          rcases hh : handleArgs st' rest with ⟨evs2, r2⟩
          cases r2 with
          | error c => simp
          | ok st2 => simp [List.append_assoc]

theorem preCleanupEvent_not_barrier_release (e : Event)
    (h : preCleanupEvent e = true) : (isBarrier e || isRelease e) = false := by
  cases e <;> simp_all [preCleanupEvent, isBarrier, isRelease]

theorem chooseFormat_eq_binary_iff (ext : String) :
    chooseFormat ext = Format.binary ↔ ext = "glb" := by
  unfold chooseFormat
  split <;> simp_all

theorem parsePhase_parse_result (f : String) (env : Env) (fmt : Format) (src : Source)
    (h : Event.parseCall fmt src ∈ (parsePhase f env).1) :
    parsePhase f env = ([Event.parseCall fmt src], Except.ok (env.parse fmt src)) := by
  unfold parsePhase at h ⊢
  by_cases h0 : f = ""
  · rw [if_pos h0] at h ⊢
    simp only [List.mem_singleton, Event.parseCall.injEq] at h
    obtain ⟨rfl, rfl⟩ := h
    rfl
  · rw [if_neg h0] at h ⊢
    by_cases h1 : env.fileSize f ≤ 0
    · rw [if_pos h1] at h
      simp at h
    · rw [if_neg h1] at h ⊢
      by_cases h2 : env.availableBytes f < (env.fileSize f).toNat
      · rw [if_pos h2] at h
        simp at h
      · rw [if_neg h2] at h ⊢
        simp only [List.mem_singleton, Event.parseCall.injEq] at h
        obtain ⟨rfl, rfl⟩ := h
        rfl

theorem setupRun_parse_none (f : String) (env : Env) (fmt : Format) (src : Source)
    (hmem : Event.parseCall fmt src ∈ (setupRun f env).1)
    (hnone : env.parse fmt src = none) :
    setupRun f env =
      ([Event.createNames, Event.createViewer, Event.createLoader] ++
        [Event.parseCall fmt src] ++ [Event.errUnableToParse], Except.error 1) := by
  have hp := parsePhase_parse_result f env fmt src (setupRun_parseCall f env fmt src hmem)
  rw [hnone] at hp
  unfold setupRun
  rw [hp]

theorem runHost_setup_error (pre : List Event) (f : String) (frames : Nat)
    (env : Env) (sevs : List Event) (c : Nat)
    (h : setupRun f env = (sevs, Except.error c)) :
    runHost pre f frames env = (pre ++ sevs, Except.error c) := by
  unfold runHost
  rw [h]

theorem runHost_setup_ok (pre : List Event) (f : String) (frames : Nat)
    (env : Env) (sevs : List Event)
    (h : setupRun f env = (sevs, Except.ok ())) :
    runHost pre f frames env =
      (pre ++ sevs ++ frameTrace frames ++ cleanupTrace, Except.ok ()) := by
  unfold runHost
  rw [h]

theorem runHost_mem_setup (pre : List Event) (f : String) (frames : Nat)
    (env : Env) (t : List Event) (r : Except Nat Unit) (e : Event)
    (h : runHost pre f frames env = (t, r)) (he : e ∈ (setupRun f env).1) :
    e ∈ t := by
  unfold runHost at h
  rcases hs : setupRun f env with ⟨sevs, r'⟩
  rw [hs] at h
  rw [hs] at he
  cases r' with
  | error c =>
      simp only [Prod.mk.injEq] at h
      obtain ⟨rfl, -⟩ := h
      exact List.mem_append.mpr (Or.inr he)
  | ok u =>
      cases u
      simp only [Prod.mk.injEq] at h
      obtain ⟨rfl, -⟩ := h
      exact List.mem_append.mpr (Or.inl (List.mem_append.mpr
        (Or.inl (List.mem_append.mpr (Or.inr he)))))

theorem runProgram_args_nil (rp : String) (opts : List OptCode) (frames : Nat)
    (env : Env) (aevs : List Event) (st : App)
    (h : handleArgs (initialApp rp) opts = (aevs, Except.ok st)) :
    runProgram rp opts [] frames env = runHost aevs "" frames env := by
  unfold runProgram
  rw [h]

theorem runProgram_args_cons (rp : String) (opts : List OptCode) (p : String)
    (rest : List String) (frames : Nat) (env : Env) (aevs : List Event) (st : App)
    (h : handleArgs (initialApp rp) opts = (aevs, Except.ok st)) :
    runProgram rp opts (p :: rest) frames env =
      if env.pathExists p then runHost aevs p frames env
      else (aevs ++ [Event.errFileNotFound], Except.error 1) := by
  unfold runProgram
  rw [h]

theorem runProgram_args_error (rp : String) (opts : List OptCode)
    (pos : List String) (frames : Nat) (env : Env) (aevs : List Event) (c : Nat)
    (h : handleArgs (initialApp rp) opts = (aevs, Except.error c)) :
    runProgram rp opts pos frames env = (aevs, Except.error c) := by
  unfold runProgram
  rw [h]

/-! ### Claim theorems -/

/-- C1: in every execution that reaches cleanup (every run that ends
normally), the GPU synchronization barrier — fence creation followed by
the blocking wait — occurs strictly before every resource release, and
the releases occur in exactly the order: viewer binding, asset (via the
owning loader), loader-held materials, the loader itself, the
NameRegistry.  Stated as: restricting the run's trace to barrier and
release events yields exactly fenceCreate, fenceWait, deleteViewer,
destroyAsset, destroyMaterials, destroyLoader, deleteNames, in order. -/
theorem cleanup_barrier_before_releases (rp : String) (opts : List OptCode)
    (pos : List String) (frames : Nat) (env : Env) (t : List Event)
    (h : runProgram rp opts pos frames env = (t, Except.ok ())) :
    t.filter (fun e => isBarrier e || isRelease e) =
      [Event.fenceCreate, Event.fenceWait, Event.deleteViewer,
       Event.destroyAsset, Event.destroyMaterials, Event.destroyLoader,
       Event.deleteNames] := by
  obtain ⟨aevs, st, sevs, ha, hs, rfl⟩ := runProgram_ok rp opts pos frames env t h
  have hpre : ∀ e ∈ aevs ++ sevs ++ frameTrace frames,
      (isBarrier e || isRelease e) = false := by
    intro e he
    rcases List.mem_append.mp he with he | he
    · rcases List.mem_append.mp he with he | he
      · rcases handleArgs_mem _ _ _ (by rw [ha]; exact he) with h1 | h1 <;>
          (subst h1; rfl)
      · exact preCleanupEvent_not_barrier_release e
          (setupRun_mem (pos.headD "") env e (by rw [hs]; exact he))
    · rcases frameTrace_mem frames e he with h1 | h1 <;> (subst h1; rfl)
  rw [List.filter_append]
  rw [List.filter_eq_nil_iff.mpr (fun a ha' => by rw [hpre a ha']; simp)]
  rfl

/-- C1 witness: the ordering fact instantiated on a concrete successful
run (no options, no path, zero frames, the everything-succeeds
environment). -/
theorem cleanup_barrier_before_releases_witness :
    (runProgram "" [] [] 0 envOk).1.filter (fun e => isBarrier e || isRelease e) =
      [Event.fenceCreate, Event.fenceWait, Event.deleteViewer,
       Event.destroyAsset, Event.destroyMaterials, Event.destroyLoader,
       Event.deleteNames] :=
  cleanup_barrier_before_releases "" [] [] 0 envOk (runProgram "" [] [] 0 envOk).1 rfl

/-- C6: in `setup`, for every successfully parsed asset the steps occur
in this order: external resources loaded in place (relative to the
source file's parent directory), then the animator extracted, then the
source hierarchy released, and only after the release is the asset bound
into the scene graph.  Stated as: restricting the setup trace to those
four steps yields exactly loadResources(parent), getAnimator,
releaseSourceData, setAsset, in order. -/
theorem setup_post_parse_order (f : String) (env : Env) (t : List Event)
    (h : setupRun f env = (t, Except.ok ())) :
    t.filter isPostParseStep =
      [Event.loadResources (env.parentDir f), Event.getAnimator,
       Event.releaseSourceData, Event.setAsset] := by
  obtain ⟨evs, a, hp, rfl⟩ := setupRun_ok f env t h
  have hevs : ∀ e ∈ evs, isPostParseStep e = false := by
    intro e he
    rcases parsePhase_mem f env e (by rw [hp]; exact he) with h1 | h1 | h1
    · cases e <;> simp_all [isParse, isPostParseStep]
    · subst h1; rfl
    · subst h1; rfl
  have h2 : evs.filter isPostParseStep = [] :=
    List.filter_eq_nil_iff.mpr (fun a' ha' => by simp [hevs a' ha'])
  rw [List.filter_append, List.filter_append, h2]
  rfl

/-- C6 witness: the ordering fact instantiated on a concrete successful
setup of `model.glb` in the everything-succeeds environment. -/
theorem setup_post_parse_order_witness :
    (setupRun "model.glb" envOk).1.filter isPostParseStep =
      [Event.loadResources (envOk.parentDir "model.glb"), Event.getAnimator,
       Event.releaseSourceData, Event.setAsset] :=
  setup_post_parse_order "model.glb" envOk (setupRun "model.glb" envOk).1 rfl

/-- C2: format dispatch.  With no positional path, the embedded fallback
payload is parsed through the binary entry point unconditionally
(the parse call on the embedded source appears in every such run's
trace, whatever the parse outcome).  With a (non-empty) path supplied,
any parse call in the trace consumes the buffered file bytes, and it
uses the binary entry point exactly when the file's extension equals
`glb`; every other extension goes to the JSON entry point. -/
theorem format_dispatch (rp : String) (opts : List OptCode) (pos : List String)
    (frames : Nat) (env : Env) (aevs : List Event) (st : App) (t : List Event)
    (r : Except Nat Unit)
    (hargs : handleArgs (initialApp rp) opts = (aevs, Except.ok st))
    (hrun : runProgram rp opts pos frames env = (t, r)) :
    (pos = [] → Event.parseCall Format.binary Source.embedded ∈ t) ∧
    (∀ p rest fmt src, pos = p :: rest → ¬p = "" →
      Event.parseCall fmt src ∈ t →
      src = Source.fileBytes p ∧
      (fmt = Format.binary ↔ env.extension p = "glb")) := by
  constructor
  · rintro rfl
    rw [runProgram_args_nil rp opts frames env aevs st hargs] at hrun
    exact runHost_mem_setup aevs "" frames env t r _ hrun
      (setupRun_embedded_parse env)
  · rintro p rest fmt src rfl hp hmem
    have hpp := runProgram_parseCall rp opts (p :: rest) frames env t r fmt src
      hrun hmem
    rcases parsePhase_parseCall p env fmt src hpp with ⟨hpe, -, -⟩ | ⟨-, hfmt, hsrc⟩
    · exact absurd hpe hp
    · subst hfmt
      exact ⟨hsrc, chooseFormat_eq_binary_iff (env.extension p)⟩

/-- C2 witness: with path `model.gltf` in an environment whose extension
oracle answers `gltf`, the parse call recorded in the run's trace uses
the file bytes and the JSON entry point. -/
theorem format_dispatch_witness :
    Source.fileBytes "model.gltf" = Source.fileBytes "model.gltf" ∧
    (Format.json = Format.binary ↔ envGltf.extension "model.gltf" = "glb") :=
  (format_dispatch "" [] ["model.gltf"] 0 envGltf [] (initialApp "")
      (runProgram "" [] ["model.gltf"] 0 envGltf).1
      (runProgram "" [] ["model.gltf"] 0 envGltf).2 rfl rfl).2
    "model.gltf" [] Format.json (Source.fileBytes "model.gltf") rfl
    (by decide) (by decide)

/-- C3: for a supplied source path, if the path does not exist, or the
size probe yields `contentSize ≤ 0`, or the buffered read obtains fewer
bytes than requested, then the run terminates with exit code 1 and no
parse entry point is ever invoked (no SceneAsset is created).  The
hypothesis that the empty path does not exist reflects `stat("")`
failing on a real filesystem. -/
theorem missing_or_unreadable_file_fatal (rp : String) (opts : List OptCode)
    (p : String) (rest : List String) (frames : Nat) (env : Env)
    (aevs : List Event) (st : App)
    (hargs : handleArgs (initialApp rp) opts = (aevs, Except.ok st))
    (hempty : env.pathExists "" = false)
    (hbad : env.pathExists p = false ∨ env.fileSize p ≤ 0 ∨
            env.availableBytes p < (env.fileSize p).toNat) :
    (runProgram rp opts (p :: rest) frames env).2 = Except.error 1 ∧
    ∀ fmt src, Event.parseCall fmt src ∉ (runProgram rp opts (p :: rest) frames env).1 := by
  have hnoargs : ∀ fmt src, Event.parseCall fmt src ∉ aevs := by
    intro fmt src hx
    rcases handleArgs_mem _ _ _ (by rw [hargs]; exact hx) with h1 | h1 <;> simp at h1
  rw [runProgram_args_cons rp opts p rest frames env aevs st hargs]
  by_cases he : env.pathExists p = true
  · rw [if_pos he]
    have hf : ¬p = "" := by
      rintro rfl
      rw [hempty] at he
      simp at he
    have hbad' : env.fileSize p ≤ 0 ∨
        env.availableBytes p < (env.fileSize p).toNat := by
      rcases hbad with hb | hb | hb
      · rw [he] at hb; simp at hb
      · exact Or.inl hb
      · exact Or.inr hb
    have hsetup : ∃ ev, setupRun p env =
        ([Event.createNames, Event.createViewer, Event.createLoader] ++ [ev],
          Except.error 1) ∧
        (ev = Event.errUnableToOpen ∨ ev = Event.errUnableToRead) := by
      by_cases h0 : env.fileSize p ≤ 0
      · refine ⟨Event.errUnableToOpen, ?_, Or.inl rfl⟩
        unfold setupRun parsePhase
        rw [if_neg hf, if_pos h0]
      · rcases hbad' with hb | hb
        · exact absurd hb h0
        · refine ⟨Event.errUnableToRead, ?_, Or.inr rfl⟩
          unfold setupRun parsePhase
          rw [if_neg hf, if_neg h0, if_pos hb]
    obtain ⟨ev, hsetup, hev⟩ := hsetup
    rw [runHost_setup_error aevs p frames env _ 1 hsetup]
    refine ⟨rfl, ?_⟩
    intro fmt src hx
    rcases List.mem_append.mp hx with hx | hx
    · exact hnoargs fmt src hx
    · rcases hev with rfl | rfl <;> simp at hx
  · rw [if_neg he]
    refine ⟨rfl, ?_⟩
    intro fmt src hx
    rcases List.mem_append.mp hx with hx | hx
    · exact hnoargs fmt src hx
    · simp at hx

/-- C3 witness: the fatality fact instantiated on a run whose path does
not exist. -/
theorem missing_or_unreadable_file_fatal_witness :
    (runProgram "" [] ["nope.gltf"] 0 envMissing).2 = Except.error 1 ∧
    ∀ fmt src,
      Event.parseCall fmt src ∉ (runProgram "" [] ["nope.gltf"] 0 envMissing).1 :=
  missing_or_unreadable_file_fatal "" [] "nope.gltf" [] 0 envMissing []
    (initialApp "") rfl rfl (Or.inl rfl)

/-- C4: the `--api` option.  Each of `opengl`, `vulkan`, `metal` sets the
backend field to the corresponding enum value (and emits nothing); any
other value emits the "Unrecognized backend" warning to diagnostic
output and leaves the whole `App` — in particular the backend default —
unchanged, continuing rather than failing. -/
theorem api_option_resolution (st : App) :
    processOpt st (OptCode.api "opengl") =
      ([], Except.ok { st with config := { st.config with backend := Backend.OPENGL } }) ∧
    processOpt st (OptCode.api "vulkan") =
      ([], Except.ok { st with config := { st.config with backend := Backend.VULKAN } }) ∧
    processOpt st (OptCode.api "metal") =
      ([], Except.ok { st with config := { st.config with backend := Backend.METAL } }) ∧
    (∀ s, ¬s = "opengl" → ¬s = "vulkan" → ¬s = "metal" →
      processOpt st (OptCode.api s) =
        ([Event.warnUnrecognizedBackend], Except.ok st)) := by
  refine ⟨rfl, rfl, rfl, ?_⟩
  intro s h1 h2 h3
  simp only [processOpt]
  rw [if_neg h1, if_neg h2, if_neg h3]

/-- C4 witness: the option resolution instantiated at the initial state,
with the recognized value `metal` and the unrecognized value `directx`. -/
theorem api_option_resolution_witness :
    processOpt (initialApp "") (OptCode.api "metal") =
      ([], Except.ok { initialApp "" with config :=
        { (initialApp "").config with backend := Backend.METAL } }) ∧
    processOpt (initialApp "") (OptCode.api "directx") =
      ([Event.warnUnrecognizedBackend], Except.ok (initialApp "")) :=
  ⟨(api_option_resolution (initialApp "")).2.2.1,
   (api_option_resolution (initialApp "")).2.2.2 "directx"
     (by decide) (by decide) (by decide)⟩

/-- C5: parse-failure handling in `setup`.  First, every fatal path
inside `setup` (any `exit`) leaves the trace without the scene-graph
binding call (`viewer->setAsset`).  Second, if the parse entry point
invoked by the run returns no asset, then `setup` prints the
"Unable to parse" diagnostic, exits with code 1, never binds the asset,
and makes exactly one parse call in total (no retry). -/
theorem parse_failure_fatal (f : String) (env : Env) (t : List Event)
    (r : Except Nat Unit) (h : setupRun f env = (t, r)) :
    (∀ c, r = Except.error c → Event.setAsset ∉ t) ∧
    (∀ fmt src, Event.parseCall fmt src ∈ t → env.parse fmt src = none →
      r = Except.error 1 ∧ Event.errUnableToParse ∈ t ∧
      Event.setAsset ∉ t ∧ (t.filter isParse).length = 1) := by
  constructor
  · intro c hc
    rw [hc] at h
    exact (setupRun_error_facts f env t c h).2
  · intro fmt src hmem hnone
    have hset := setupRun_parse_none f env fmt src (by rw [h]; exact hmem) hnone
    rw [h] at hset
    simp only [Prod.mk.injEq] at hset
    obtain ⟨rfl, rfl⟩ := hset
    refine ⟨rfl, by simp, by simp, rfl⟩

/-- C5 witness: the parse-failure behaviour instantiated on the
embedded-fallback setup in an environment whose parser always returns a
null asset. -/
theorem parse_failure_fatal_witness :
    (setupRun "" envParseFail).2 = Except.error 1 ∧
    Event.errUnableToParse ∈ (setupRun "" envParseFail).1 ∧
    Event.setAsset ∉ (setupRun "" envParseFail).1 ∧
    ((setupRun "" envParseFail).1.filter isParse).length = 1 :=
  (parse_failure_fatal "" envParseFail (setupRun "" envParseFail).1
      (setupRun "" envParseFail).2 rfl).2
    Format.binary Source.embedded (by decide) rfl

/-- C7: round-trip with the embedded fallback.  In every run with no
positional path whose argument handling completes, the trace contains
exactly one parse call — on the embedded payload, through the binary
entry point — and (modelled from the spec, since the payload and the
parser live outside the sample) the resulting SceneAsset has a
non-empty entity set. -/
theorem embedded_roundtrip (rp : String) (opts : List OptCode) (frames : Nat)
    (env : Env) (aevs : List Event) (st : App) (t : List Event)
    (r : Except Nat Unit)
    (hargs : handleArgs (initialApp rp) opts = (aevs, Except.ok st))
    (hparse : env.parse Format.binary Source.embedded = some embeddedFallbackAsset)
    (hrun : runProgram rp opts [] frames env = (t, r)) :
    t.filter isParse = [Event.parseCall Format.binary Source.embedded] ∧
    embeddedFallbackAsset.entities ≠ [] := by
  have hpp : parsePhase "" env =
      ([Event.parseCall Format.binary Source.embedded],
        Except.ok (some embeddedFallbackAsset)) := by
    unfold parsePhase
    rw [if_pos rfl, hparse]
  have hsetup : setupRun "" env =
      ([Event.createNames, Event.createViewer, Event.createLoader] ++
        [Event.parseCall Format.binary Source.embedded] ++
        [Event.loadResources (env.parentDir ""), Event.getAnimator,
         Event.releaseSourceData, Event.setAsset, Event.setSampleCount 4],
        Except.ok ()) := by
    unfold setupRun
    rw [hpp]
  rw [runProgram_args_nil rp opts frames env aevs st hargs,
    runHost_setup_ok aevs "" frames env _ hsetup] at hrun
  simp only [Prod.mk.injEq] at hrun
  obtain ⟨rfl, -⟩ := hrun
  have h1 : aevs.filter isParse = [] :=
    List.filter_eq_nil_iff.mpr (fun a ha => by
      rcases handleArgs_mem _ _ _ (by rw [hargs]; exact ha) with h1 | h1 <;>
        simp [h1, isParse])
  have h2 : (frameTrace frames).filter isParse = [] :=
    List.filter_eq_nil_iff.mpr (fun a ha => by
      rcases frameTrace_mem frames a ha with h1 | h1 <;> simp [h1, isParse])
  refine ⟨?_, by simp [embeddedFallbackAsset]⟩
  rw [List.filter_append, List.filter_append, List.filter_append, h1, h2]
  rfl

/-- C7 witness: the round-trip fact instantiated on a concrete run with
no path in the environment whose embedded parse yields the spec-modelled
fallback asset. -/
theorem embedded_roundtrip_witness :
    (runProgram "" [] [] 0 envEmbedded).1.filter isParse =
      [Event.parseCall Format.binary Source.embedded] ∧
    embeddedFallbackAsset.entities ≠ [] :=
  embedded_roundtrip "" [] 0 envEmbedded [] (initialApp "")
    (runProgram "" [] [] 0 envEmbedded).1
    (runProgram "" [] [] 0 envEmbedded).2 rfl rfl rfl

/-- C8: an unrecognized option flag takes the same path as `--help`:
`processOpt` treats the two identically (the `default:` label shares the
`case 'h':` body), the usage text is printed, and the process exits with
code 0; in the whole run this happens before any asset loading — no
parse entry point is ever invoked. -/
theorem unrecognized_flag_prints_usage (st : App) (rp : String)
    (pre post : List OptCode) (pos : List String) (frames : Nat) (env : Env)
    (aevs : List Event) (st' : App)
    (hargs : handleArgs (initialApp rp) pre = (aevs, Except.ok st')) :
    processOpt st OptCode.unrecognized = processOpt st OptCode.help ∧
    processOpt st OptCode.unrecognized = ([Event.printUsage], Except.error 0) ∧
    (runProgram rp (pre ++ OptCode.unrecognized :: post) pos frames env).2 =
      Except.error 0 ∧
    Event.printUsage ∈
      (runProgram rp (pre ++ OptCode.unrecognized :: post) pos frames env).1 ∧
    (∀ fmt src, Event.parseCall fmt src ∉
      (runProgram rp (pre ++ OptCode.unrecognized :: post) pos frames env).1) := by
  have hH : handleArgs (initialApp rp) (pre ++ OptCode.unrecognized :: post) =
      (aevs ++ [Event.printUsage], Except.error 0) := by
    rw [handleArgs_append, hargs]
    rfl
  have hrun := runProgram_args_error rp (pre ++ OptCode.unrecognized :: post)
    pos frames env (aevs ++ [Event.printUsage]) 0 hH
  refine ⟨rfl, rfl, by rw [hrun], by rw [hrun]; simp, ?_⟩
  intro fmt src hx
  rw [hrun] at hx
  rcases List.mem_append.mp hx with hx | hx
  · rcases handleArgs_mem _ _ _ (by rw [hargs]; exact hx) with h1 | h1 <;>
      simp at h1
  · simp at hx

/-- C8 witness: a run whose only option token is an unrecognized flag
exits with code 0, after printing the usage text. -/
theorem unrecognized_flag_prints_usage_witness :
    (runProgram "" [OptCode.unrecognized] [] 0 envOk).2 = Except.error 0 ∧
    Event.printUsage ∈ (runProgram "" [OptCode.unrecognized] [] 0 envOk).1 :=
  have h := unrecognized_flag_prints_usage (initialApp "") "" [] [] [] 0 envOk
    [] (initialApp "") rfl
  ⟨h.2.2.1, h.2.2.2.1⟩

/-- C9: the extension test that selects the binary parse entry point is
an exact, case-sensitive string comparison with `glb`: the binary entry
point is chosen iff the extension is exactly `glb`, and extensions that
differ in case (`GLB`, `Glb`) or spelling (`gltf`) all route to the
text/JSON entry point. -/
theorem glb_extension_exact_case_sensitive :
    (∀ ext, chooseFormat ext = Format.binary ↔ ext = "glb") ∧
    chooseFormat "GLB" = Format.json ∧
    chooseFormat "Glb" = Format.json ∧
    chooseFormat "gltf" = Format.json :=
  ⟨chooseFormat_eq_binary_iff, rfl, rfl, rfl⟩

/-- C10: when more than one positional argument is supplied, only the
first is used as the scene-file path: the whole run — trace and exit
status — is identical whatever the remaining positional arguments are. -/
theorem extra_positionals_ignored (rp : String) (opts : List OptCode)
    (p : String) (rest rest' : List String) (frames : Nat) (env : Env) :
    runProgram rp opts (p :: rest) frames env =
      runProgram rp opts (p :: rest') frames env := by
  unfold runProgram
  rcases handleArgs (initialApp rp) opts with ⟨evs, r⟩
  cases r <;> rfl
